import Mathlib

/-!
Verification of the llama-searchai metasearch/vector/scheduler services
against their natural-language specification.

The Python services are shallowly embedded: pydantic models become
structures, async service methods become pure functions in which the
runtime effects (HTTP provider calls, random number generation, uuid4,
utcnow) are passed in as explicit arguments, and Python exceptions become
Except values.  Python floats are modelled as exact rationals, Python
dicts as insertion-ordered association lists, and Python datetimes as
integer timestamps (seconds).
-/

namespace LlamaSearchAI

/-! ## Python dict helpers

Association lists with Python dict semantics: insertion keeps the
first-insertion position of a key and overwrites its value. -/

/-- `d[k] = v` on an insertion-ordered dict. -/
def dictInsert (k : String) (v : β) (m : List (String × β)) : List (String × β) :=
  if m.any (fun kv => kv.1 = k) then m.map (fun kv => if kv.1 = k then (k, v) else kv)
  else m ++ [(k, v)]

/-- In-place update `f` of the value at key `k` (Python `d[k] += ...`). -/
def dictAdjust (k : String) (f : β → β) (m : List (String × β)) : List (String × β) :=
  m.map (fun kv => if kv.1 = k then (kv.1, f kv.2) else kv)

/-- Build a dict from a list of key/value pairs by repeated insertion
(later duplicates overwrite, as for Python dict construction). -/
def dictOfList (l : List (String × β)) : List (String × β) :=
  l.foldl (fun m kv => dictInsert kv.1 kv.2 m) []

/-! ## models/search.py -/

/-- `SearchResultType` from models/search.py. -/
inductive SearchResultType where
  | web | image | video | news | document | social | product | other
deriving DecidableEq, Repr

/-- `SearchIntent` from models/search.py. -/
inductive SearchIntent where
  | informational | navigational | transactional | commercial
  | localIntent | visual | news | undefined
deriving DecidableEq, Repr

/-- `SearchLocality` from models/search.py. -/
inductive SearchLocality where
  | globalLoc | localLoc | regional | national | undefined
deriving DecidableEq, Repr

/-- `Query` from models/search.py.  Defaults are the pydantic field
defaults; `parameters`/`context` are `Dict[str, Any]` maps, modelled as
association lists of strings (their values are never inspected by the
services). -/
structure Query where
  text : String
  intent : SearchIntent := SearchIntent.undefined
  locality : SearchLocality := SearchLocality.undefined
  language : String := "en"
  query_id : Option String := none
  timestamp : Option Int := none
  processed_text : Option String := none
  parameters : List (String × String) := []
  context : List (String × String) := []
deriving DecidableEq, Repr

/-- `SearchResult` from models/search.py.  `metadata` is a
`Dict[str, Any]` whose values are numbers in the service code, modelled
as rationals. -/
structure SearchResult where
  title : String
  url : String
  snippet : String
  provider : String
  rank : Nat
  timestamp : Option Int := none
  metadata : List (String × ℚ) := []
  content_type : SearchResultType := SearchResultType.web
  is_ad : Bool := false
  cached_url : Option String := none
  attribution : Option (List (String × String)) := none
  dark_pattern_flags : List String := []
  result_id : Option String := none
deriving DecidableEq, Repr

/-- The `Union[str, Query]` type of `SearchRequest.query`. -/
inductive QueryInput where
  | ofString (s : String)
  | ofQuery (q : Query)
deriving DecidableEq, Repr

/-- `SearchRequest` from models/search.py.  It has no ranking-strategy
field. -/
structure SearchRequest where
  query : QueryInput
  num_results : Nat := 10
  providers : Option (List String) := none
  parameters : List (String × String) := []
deriving DecidableEq, Repr

/-! ## services/search.py: provider configuration -/

/-- One entry of `SearchService._providers` (services/search.py,
`__init__`): a dict with keys `enabled`, `weight`, `endpoint`. -/
structure ProviderConfig where
  enabled : Bool
  weight : ℚ
  endpoint : String
deriving DecidableEq, Repr

/-! ## services/search.py: result combination (`_combine_results`) -/

/-- Total number of results across all provider queues. -/
def totalLen (qss : List (List α)) : Nat :=
  (qss.map List.length).sum

/-- One pass of the inner `for provider in providers` loop of
`SearchService._combine_results`: walk the provider queues in order,
pop the head of each non-empty queue onto the accumulator, and stop
early as soon as the accumulator reaches `n` results.  Returns the
remaining queues, the new accumulator, and the `added_any` flag. -/
def combineRound (n : Nat) : List (String × List α) → List α →
    List (String × List α) × List α × Bool
  | [], acc => ([], acc, false)
  | (p, q) :: qs, acc =>
    match q with
    | [] =>
      let r := combineRound n qs acc
      ((p, []) :: r.1, r.2.1, r.2.2)
    | x :: rest =>
      let acc2 := acc ++ [x]
      if n ≤ acc2.length then ((p, rest) :: qs, acc2, true)
      else
        let r := combineRound n qs acc2
        ((p, rest) :: r.1, r.2.1, true)

/-- `combineRound` never increases the total queue length. -/
theorem combineRound_totalLen_le (n : Nat) (qs : List (String × List α)) (acc : List α) :
    totalLen ((combineRound n qs acc).1.map Prod.snd) ≤ totalLen (qs.map Prod.snd) := by
  induction qs generalizing acc with
  | nil => simp [combineRound]
  | cons kv qs ih =>
    obtain ⟨p, q⟩ := kv
    cases q with
    | nil => simpa [combineRound, totalLen] using ih acc
    | cons x rest =>
      simp only [combineRound]
      split
      · simp [totalLen]
      · have := ih (acc ++ [x])
        simp only [totalLen, List.map_cons, List.sum_cons, List.length_cons] at this ⊢
        omega

/-- If the round reports `added_any = true` it consumed at least one
result, so the total queue length strictly decreases. -/
theorem combineRound_totalLen_lt (n : Nat) (qs : List (String × List α)) (acc : List α)
    (h : (combineRound n qs acc).2.2 = true) :
    totalLen ((combineRound n qs acc).1.map Prod.snd) < totalLen (qs.map Prod.snd) := by
  induction qs generalizing acc with
  | nil => simp [combineRound] at h
  | cons kv qs ih =>
    obtain ⟨p, q⟩ := kv
    cases q with
    | nil =>
      simp only [combineRound] at h ⊢
      have := ih acc h
      simp only [totalLen, List.map_cons, List.sum_cons] at this ⊢
      omega
    | cons x rest =>
      simp only [combineRound] at h ⊢
      split
      · simp [totalLen]
      · have := combineRound_totalLen_le n qs (acc ++ [x])
        simp only [totalLen, List.map_cons, List.sum_cons, List.length_cons] at this ⊢
        omega

/-- The `while len(all_results) < num_results` loop of
`SearchService._combine_results`: repeat `combineRound` until either the
accumulator holds `n` results or a full round adds nothing.  Returns the
accumulated results and the leftover queues (the Python code reaches the
same leftover state by popping the caller's lists in place). -/
def combineLoop (n : Nat) (queues : List (String × List α)) (acc : List α) :
    List α × List (String × List α) :=
  if acc.length < n then
    let r := combineRound n queues acc
    if r.2.2 then combineLoop n r.1 r.2.1 else (r.2.1, r.1)
  else (acc, queues)
termination_by totalLen (queues.map Prod.snd)
decreasing_by
  exact combineRound_totalLen_lt n queues acc (by assumption)

/-- `SearchService._combine_results` (services/search.py lines 402-444):
interleave the per-provider result lists round-robin, in the order the
providers appear, into a single list of at most `num_results` results. -/
def combine_results (provider_results : List (String × List α)) (num_results : Nat) :
    List α :=
  (combineLoop num_results provider_results []).1

/-! ## Specification-side round-robin interleaving

`roundRobinSpec` is written from the spec's words for the `interleaved`
strategy ("round-robin one result per contributing provider in a fixed
provider priority order, skipping providers with no remaining results"):
repeatedly take the head of every non-empty queue, in queue order, until
all queues are exhausted.  `combine_results` is compared against it. -/

theorem totalLen_map_tail_le (qss : List (List α)) :
    totalLen (qss.map List.tail) ≤ totalLen qss := by
  induction qss with
  | nil => simp [totalLen]
  | cons q qss ih =>
    cases q with
    | nil => simpa [totalLen] using ih
    | cons x r =>
      simp only [totalLen, List.map_cons, List.sum_cons, List.tail_cons,
        List.length_cons] at ih ⊢
      omega

theorem heads_eq_nil_iff (qss : List (List α)) :
    qss.filterMap List.head? = [] ↔ ∀ q ∈ qss, q = [] := by
  rw [List.filterMap_eq_nil_iff]
  constructor
  · intro h q hq
    have := h q hq
    cases q with
    | nil => rfl
    | cons x r => simp at this
  · intro h q hq
    rw [h q hq]
    rfl

theorem totalLen_map_tail_lt (qss : List (List α))
    (h : qss.filterMap List.head? ≠ []) :
    totalLen (qss.map List.tail) < totalLen qss := by
  induction qss with
  | nil => simp at h
  | cons q qss ih =>
    cases q with
    | nil =>
      simp only [List.filterMap_cons, List.head?_nil] at h
      have := ih h
      simp only [totalLen, List.map_cons, List.sum_cons, List.tail_nil,
        List.length_nil] at this ⊢
      omega
    | cons x r =>
      have := totalLen_map_tail_le qss
      simp only [totalLen, List.map_cons, List.sum_cons, List.tail_cons,
        List.length_cons] at this ⊢
      omega

/-- Round-robin interleaving as the spec words it: one result per
non-exhausted queue per round, in queue order, until exhaustion. -/
def roundRobinSpec (qss : List (List α)) : List α :=
  match h : qss.filterMap List.head? with
  | [] => []
  | x :: hs => (x :: hs) ++ roundRobinSpec (qss.map List.tail)
termination_by totalLen qss
decreasing_by
  exact totalLen_map_tail_lt qss (by simp [h])

theorem roundRobinSpec_of_nil (qss : List (List α))
    (h : qss.filterMap List.head? = []) : roundRobinSpec qss = [] := by
  unfold roundRobinSpec
  split <;> simp_all

theorem roundRobinSpec_of_cons (qss : List (List α))
    (h : qss.filterMap List.head? ≠ []) :
    roundRobinSpec qss =
      qss.filterMap List.head? ++ roundRobinSpec (qss.map List.tail) := by
  conv_lhs => rw [roundRobinSpec]
  split <;> simp_all

theorem heads_tails_perm (qss : List (List α)) :
    (qss.filterMap List.head? ++ (qss.map List.tail).flatten).Perm qss.flatten := by
  induction qss with
  | nil => simp
  | cons q qss ih =>
    cases q with
    | nil => simpa using ih
    | cons x r =>
      simp only [List.filterMap_cons, List.head?_cons, List.map_cons,
        List.tail_cons, List.flatten_cons, List.cons_append]
      refine List.Perm.cons x ?_
      have h1 : (qss.filterMap List.head? ++ (r ++ (qss.map List.tail).flatten)).Perm
          (r ++ (qss.filterMap List.head? ++ (qss.map List.tail).flatten)) := by
        rw [← List.append_assoc, ← List.append_assoc]
        exact List.perm_append_comm.append_right _
      exact h1.trans (ih.append_left r)

theorem roundRobinSpec_perm (qss : List (List α)) :
    (roundRobinSpec qss).Perm qss.flatten := by
  suffices H : ∀ (s : Nat) (qss : List (List α)), totalLen qss ≤ s →
      (roundRobinSpec qss).Perm qss.flatten from H (totalLen qss) qss le_rfl
  intro s
  induction s with
  | zero =>
    intro qss hs
    have hall : ∀ q ∈ qss, q = [] := by
      intro q hq
      have : q.length = 0 := by
        have hmem : q.length ∈ qss.map List.length := List.mem_map_of_mem _ hq
        have := List.le_sum_of_mem hmem
        simp only [totalLen] at hs
        omega
      exact List.length_eq_zero.mp this
    rw [roundRobinSpec_of_nil qss ((heads_eq_nil_iff qss).mpr hall)]
    rw [List.flatten_eq_nil_iff.mpr hall]
  | succ s ih =>
    intro qss hs
    by_cases h : qss.filterMap List.head? = []
    · rw [roundRobinSpec_of_nil qss h]
      rw [List.flatten_eq_nil_iff.mpr ((heads_eq_nil_iff qss).mp h)]
    · rw [roundRobinSpec_of_cons qss h]
      have hlt := totalLen_map_tail_lt qss h
      have hrec := ih (qss.map List.tail) (by omega)
      exact (hrec.append_left _).trans (heads_tails_perm qss)

/-! ### Characterization of `_combine_results` by `roundRobinSpec` -/

/-- The accumulator after one round: the heads of the non-empty queues,
in order, cut off as soon as the accumulator reaches `n`. -/
theorem combineRound_acc (n : Nat) (qs : List (String × List α)) (acc : List α)
    (h : acc.length < n) :
    (combineRound n qs acc).2.1 =
      acc ++ ((qs.map Prod.snd).filterMap List.head?).take (n - acc.length) := by
  induction qs generalizing acc with
  | nil => simp [combineRound]
  | cons kv qs ih =>
    obtain ⟨p, q⟩ := kv
    cases q with
    | nil =>
      simpa [combineRound] using ih acc h
    | cons x rest =>
      simp only [combineRound, List.map_cons, List.filterMap_cons, List.head?_cons]
      split
      · have hn : n - acc.length = 1 := by
          simp only [List.length_append, List.length_cons, List.length_nil] at *
          omega
        simp [hn]
      · have hlen : (acc ++ [x]).length < n := by
          simp only [List.length_append, List.length_cons, List.length_nil] at *
          omega
        have := ih (acc ++ [x]) hlen
        rw [this]
        have hn : n - acc.length = (n - (acc ++ [x]).length) + 1 := by
          simp only [List.length_append, List.length_cons, List.length_nil]
          omega
        rw [hn, List.take_succ_cons, List.append_assoc]
        rfl

/-- The `added_any` flag is true exactly when some queue was non-empty. -/
theorem combineRound_added (n : Nat) (qs : List (String × List α)) (acc : List α) :
    (combineRound n qs acc).2.2 = true ↔
      (qs.map Prod.snd).filterMap List.head? ≠ [] := by
  induction qs generalizing acc with
  | nil => simp [combineRound]
  | cons kv qs ih =>
    obtain ⟨p, q⟩ := kv
    cases q with
    | nil => simpa [combineRound] using ih acc
    | cons x rest =>
      simp only [combineRound, List.map_cons, List.filterMap_cons, List.head?_cons]
      split <;> simp

/-- When all queues are empty the tail-map is the identity. -/
theorem tailMap_of_heads_nil (qs : List (String × List α))
    (h : (qs.map Prod.snd).filterMap List.head? = []) :
    qs.map (fun kv => (kv.1, kv.2.tail)) = qs := by
  induction qs with
  | nil => rfl
  | cons kv qs ih =>
    obtain ⟨p, q⟩ := kv
    cases q with
    | nil =>
      simp only [List.map_cons, List.filterMap_cons, List.head?_nil] at h
      simp [ih h]
    | cons x rest =>
      simp only [List.map_cons, List.filterMap_cons, List.head?_cons] at h
      cases h

/-- If the round completes without hitting the `n` cutoff, the leftover
queues are exactly the tails of the input queues. -/
theorem combineRound_leftover (n : Nat) (qs : List (String × List α)) (acc : List α)
    (h : acc.length + ((qs.map Prod.snd).filterMap List.head?).length ≤ n) :
    (combineRound n qs acc).1 = qs.map (fun kv => (kv.1, kv.2.tail)) := by
  induction qs generalizing acc with
  | nil => simp [combineRound]
  | cons kv qs ih =>
    obtain ⟨p, q⟩ := kv
    cases q with
    | nil =>
      simp only [List.map_cons, List.filterMap_cons, List.head?_nil] at h ⊢
      simp only [combineRound, List.tail_nil]
      exact congrArg _ (ih acc h)
    | cons x rest =>
      simp only [List.map_cons, List.filterMap_cons, List.head?_cons,
        List.length_cons] at h ⊢
      simp only [combineRound, List.tail_cons]
      split
      · rename_i hcut
        simp only [List.length_append, List.length_cons, List.length_nil] at hcut
        have hnil : (qs.map Prod.snd).filterMap List.head? = [] := by
          have : ((qs.map Prod.snd).filterMap List.head?).length = 0 := by omega
          exact List.length_eq_zero.mp this
        rw [tailMap_of_heads_nil qs hnil]
      · refine congrArg _ (ih (acc ++ [x]) ?_)
        simp only [List.length_append, List.length_cons, List.length_nil]
        omega

/-- Unfolding equation for `combineLoop`. -/
theorem combineLoop_eq (n : Nat) (qs : List (String × List α)) (acc : List α) :
    combineLoop n qs acc =
      if acc.length < n then
        if (combineRound n qs acc).2.2 then
          combineLoop n (combineRound n qs acc).1 (combineRound n qs acc).2.1
        else ((combineRound n qs acc).2.1, (combineRound n qs acc).1)
      else (acc, qs) := by
  rw [combineLoop]

/-- The loop produces the round-robin interleaving of the queues,
truncated to `n` results (generalized over the accumulator). -/
theorem combineLoop_acc (n : Nat) :
    ∀ (s : Nat) (qs : List (String × List α)) (acc : List α),
      totalLen (qs.map Prod.snd) ≤ s → acc.length ≤ n →
      (combineLoop n qs acc).1 =
        acc ++ (roundRobinSpec (qs.map Prod.snd)).take (n - acc.length) := by
  intro s
  induction s with
  | zero =>
    intro qs acc hs hle
    have hnil : (qs.map Prod.snd).filterMap List.head? = [] := by
      rw [heads_eq_nil_iff]
      intro q hq
      have hmem : q.length ∈ (qs.map Prod.snd).map List.length :=
        List.mem_map_of_mem _ hq
      have := List.le_sum_of_mem hmem
      simp only [totalLen] at hs
      exact List.length_eq_zero.mp (by omega)
    have hb : ¬ (combineRound n qs acc).2.2 = true := by
      rw [combineRound_added n qs acc]
      simp [hnil]
    rw [combineLoop_eq, roundRobinSpec_of_nil _ hnil]
    by_cases hlt : acc.length < n
    · rw [if_pos hlt, if_neg hb]
      simp [combineRound_acc n qs acc hlt, hnil]
    · rw [if_neg hlt]
      simp
  | succ s ih =>
    intro qs acc hs hle
    rw [combineLoop_eq]
    by_cases hlt : acc.length < n
    · rw [if_pos hlt]
      by_cases hh : (qs.map Prod.snd).filterMap List.head? = []
      · have hb : ¬ (combineRound n qs acc).2.2 = true := by
          rw [combineRound_added n qs acc]
          simp [hh]
        rw [if_neg hb, roundRobinSpec_of_nil _ hh]
        simp [combineRound_acc n qs acc hlt, hh]
      · have hb : (combineRound n qs acc).2.2 = true :=
          (combineRound_added n qs acc).mpr hh
        rw [if_pos hb, roundRobinSpec_of_cons _ hh]
        have hacc := combineRound_acc n qs acc hlt
        have hlt2 := combineRound_totalLen_lt n qs acc hb
        have hrec1 : totalLen ((combineRound n qs acc).1.map Prod.snd) ≤ s := by
          omega
        by_cases hcase :
            acc.length + ((qs.map Prod.snd).filterMap List.head?).length ≤ n
        · -- full round: every head was taken, leftover queues are the tails
          have hleft := combineRound_leftover n qs acc hcase
          have htake : ((qs.map Prod.snd).filterMap List.head?).take (n - acc.length) =
              (qs.map Prod.snd).filterMap List.head? :=
            List.take_of_length_le (by omega)
          have hacclen : (combineRound n qs acc).2.1.length =
              acc.length + ((qs.map Prod.snd).filterMap List.head?).length := by
            rw [hacc, htake, List.length_append]
          have hrec := ih (combineRound n qs acc).1 (combineRound n qs acc).2.1
            hrec1 (by omega)
          have hmapmap : ((qs.map (fun kv => (kv.1, kv.2.tail))).map Prod.snd) =
              (qs.map Prod.snd).map List.tail := by
            simp [List.map_map]
          rw [hrec, hacc, htake, hleft, hmapmap]
          rw [List.append_assoc, List.take_append_eq_append_take]
          congr 1
          congr 1
          · exact (List.take_of_length_le (by omega)).symm
          · congr 1
            rw [List.length_append]
            omega
        · -- the cutoff hit mid-round: the accumulator already has n results
          have hacclen : (combineRound n qs acc).2.1.length = n := by
            rw [hacc, List.length_append, List.length_take]
            omega
          have hrec := ih (combineRound n qs acc).1 (combineRound n qs acc).2.1
            hrec1 (by omega)
          have h0 : (n - acc.length) -
              ((qs.map Prod.snd).filterMap List.head?).length = 0 := by
            omega
          rw [hrec, hacclen, Nat.sub_self, List.take_zero, List.append_nil, hacc]
          congr 1
          rw [List.take_append_eq_append_take, h0, List.take_zero, List.append_nil]
    · rw [if_neg hlt]
      have hacc : acc.length = n := by omega
      simp [hacc]

/-- `_combine_results` refines the spec's round-robin interleaving:
it returns the round-robin merge of the provider queues, truncated to
`num_results`. -/
theorem combine_results_eq_roundRobin (pr : List (String × List α)) (n : Nat) :
    combine_results pr n = (roundRobinSpec (pr.map Prod.snd)).take n := by
  have := combineLoop_acc n (totalLen (pr.map Prod.snd)) pr [] le_rfl (by simp)
  simpa [combine_results] using this

/-! ## services/search.py: query analysis -/

/-- `SearchService.analyze_query` (services/search.py lines 177-201).
The fresh `uuid4()` and `datetime.utcnow()` drawn inside the call are
passed as the explicit arguments `uid` and `now`. -/
def analyze_query (query_text : String) (uid : String) (now : Int) : Query :=
  { text := query_text
    intent := SearchIntent.informational
    locality := SearchLocality.globalLoc
    language := "en"
    query_id := some uid
    timestamp := some now
    processed_text := some query_text.toLower
    parameters := []
    context := [] }

/-! ## services/search.py: the search pipeline -/

/-- Python values as they flow into pydantic validation (only the shapes
the bias-analysis construction needs). -/
inductive PyVal where
  | pyFloat (q : ℚ)
  | pyStr (s : String)
  | pyList (l : List PyVal)
  | pyDictV (entries : List (String × PyVal))

/-- pydantic v1 validation of a `Dict[str, Any]` field: a non-dict value
is rejected. -/
def validate_dict_field : PyVal → Except String (List (String × PyVal))
  | PyVal.pyDictV es => Except.ok es
  | _ => Except.error "value is not a valid dict"

/-- `BiasAnalysis` from models/search.py (lines 179-193): all four
fields are declared `Dict[str, Any]`. -/
structure BiasAnalysis where
  provider_bias : List (String × PyVal) := []
  commercial_bias : List (String × PyVal) := []
  source_bias : List (String × PyVal) := []
  dark_patterns : List (String × PyVal) := []

/-- pydantic construction of `BiasAnalysis`: each passed field value is
validated against its declared `Dict[str, Any]` type.  (The unknown
`dark_patterns_detected` keyword passed at the call site is ignored by
pydantic's default config, and `dark_patterns` keeps its empty
default.) -/
def BiasAnalysis.construct (provider_bias commercial_bias source_bias : PyVal) :
    Except String BiasAnalysis := do
  let pb ← validate_dict_field provider_bias
  let cb ← validate_dict_field commercial_bias
  let sb ← validate_dict_field source_bias
  pure { provider_bias := pb, commercial_bias := cb, source_bias := sb,
         dark_patterns := [] }

/-- `SearchMetadata` (models/search.py lines 196-216), restricted to the
deterministic fields the service computes; the wall-clock timing,
request-id and timestamp fields are runtime-only values and are not
modelled. -/
structure SearchMetadata where
  engines_used : List String
  results_count : List (String × Nat)
  aggregation_strategy : String
  deduplication_stats : List (String × Nat)
  bias_analysis : Option BiasAnalysis

/-- `SearchResponse` from models/search.py. -/
structure SearchResponse where
  results : List SearchResult
  metadata : SearchMetadata
  query : Query

/-- The two exception kinds `SearchService.search` can raise: the
explicit `ValueError` for an empty provider dict (line 79), and a
pydantic `ValidationError` from model construction. -/
inductive SearchError where
  | valueError (msg : String)
  | validationError (msg : String)
deriving DecidableEq, Repr

/-- Line 96: `providers_to_use = request.providers or
list(self._providers.keys())` — Python `or` falls back both for `None`
and for an empty list. -/
def providersToUse (cfg : List (String × ProviderConfig))
    (request : SearchRequest) : List String :=
  match request.providers with
  | none => cfg.map Prod.fst
  | some ps => if ps.isEmpty then cfg.map Prod.fst else ps

/-- Lines 97-107: keep the requested providers that are configured and
enabled; if none are left, log a warning and fall back to every
configured provider. -/
def enabledProvidersFor (cfg : List (String × ProviderConfig))
    (request : SearchRequest) : List String :=
  let ptu := providersToUse cfg request
  let enabled := ptu.filter
    (fun p => ((cfg.lookup p).map ProviderConfig.enabled).getD false)
  if enabled.isEmpty then cfg.map Prod.fst else enabled

/-- `SearchService.search` (services/search.py lines 65-175).  The
awaited per-provider tasks are modelled by `fetch`: `.ok rs` for a task
that returned results, `.error e` for one that raised (the `except` at
lines 124-126 turns the latter into an empty result list).  The
`result_counts` dict is computed from the per-provider lists after
`_combine_results` has popped from them in place. -/
def search (cfg : List (String × ProviderConfig))
    (fetch : String → Except String (List SearchResult))
    (request : SearchRequest) : Except SearchError SearchResponse :=
  if cfg.isEmpty then
    Except.error (SearchError.valueError "No search providers are configured")
  else
    let query : Query :=
      match request.query with
      | QueryInput.ofQuery q => q
      | QueryInput.ofString s => { text := s }
    let enabled_providers := enabledProvidersFor cfg request
    let provider_results := dictOfList (enabled_providers.map
      (fun p => (p, match fetch p with
        | Except.ok rs => rs
        | Except.error _ => [])))
    let combined := combineLoop request.num_results provider_results []
    let results := combined.1
    let result_counts := dictInsert "total" results.length
      (combined.2.map (fun kv => (kv.1, kv.2.length)))
    match BiasAnalysis.construct (PyVal.pyFloat 0.1) (PyVal.pyFloat 0.2)
        (PyVal.pyFloat 0.15) with
    | Except.error msg => Except.error (SearchError.validationError msg)
    | Except.ok ba =>
      Except.ok
        { results := results
          query := query
          metadata :=
            { engines_used := enabled_providers
              results_count := result_counts
              aggregation_strategy := "interleaved"
              deduplication_stats := [("duplicates_found", 0), ("removed", 0)]
              bias_analysis := some ba } }

/-! ## services/scheduler.py -/

/-- Modelled from the spec: the `Schedule` pydantic model comes from
`llamasearchai.models.scheduler`, which is not among the source files;
only the scheduler service that reads it is.  Its fields are taken from
the service's accesses in `_calculate_next_run` (an optional one-off run
time, an optional interval in seconds, an optional cron expression),
with datetimes as integer timestamps in seconds. -/
structure Schedule where
  run_once_at : Option Int := none
  interval_seconds : Option Int := none
  cron_expression : Option String := none
deriving DecidableEq, Repr

/-- `SchedulerService._calculate_next_run` (services/scheduler.py lines
215-241) with `now = datetime.utcnow()` passed explicitly.  Python
truthiness of the `if schedule.<field>:` guards is preserved: a present
datetime is always truthy, while an interval of `0` seconds and an empty
cron-expression string are falsy. -/
def calculate_next_run (now : Int) (schedule : Schedule) : Option Int :=
  match schedule.run_once_at with
  | some t => if now < t then some t else none
  | none =>
    if (schedule.interval_seconds.getD 0) ≠ 0 then
      some (now + schedule.interval_seconds.getD 0)
    else if (schedule.cron_expression.getD "") ≠ "" then
      -- placeholder cron handling: five minutes from now
      some (now + 5 * 60)
    else
      none

/-! ## services/vector.py -/

/-- One entry of `VectorService._collections`: a dict with keys
`dimension`, `index_type`, `vector_count`, `created_at`. -/
structure CollectionInfo where
  dimension : Nat
  index_type : String
  vector_count : Nat
  created_at : String
deriving DecidableEq, Repr

/-- The `Union[str, List[float]]` type of `VectorSearchRequest.query`. -/
inductive VQueryInput where
  | text (s : String)
  | vec (v : List ℚ)
deriving DecidableEq, Repr

/-- `VectorSearchRequest` from models/vector.py (lines 107-123);
`parameters` only ever feeds the boolean `include_vectors` lookup. -/
structure VectorSearchRequest where
  query : VQueryInput
  collection : String
  num_results : Nat := 10
  filter : Option (List (String × String)) := none
  parameters : List (String × Bool) := []
deriving DecidableEq, Repr

/-- `VectorRecord` from models/vector.py (lines 149-163). -/
structure VectorRecord where
  id : String
  vector : Option (List ℚ) := none
  score : Option ℚ := none
  metadata : List (String × PyVal) := []

/-- `VectorSearchMetadata` (models/vector.py), restricted to the
deterministic fields; wall-clock and request-id fields are runtime-only
values and are not modelled. -/
structure VectorSearchMetadata where
  collection : String
  index_type : String
  vector_dimensions : Nat
  total_vectors_searched : Nat
  filtered_vectors : Nat

/-- `VectorSearchResponse` from models/vector.py. -/
structure VectorSearchResponse where
  results : List VectorRecord
  metadata : VectorSearchMetadata

/-- `VectorService.vector_search` (services/vector.py lines 138-244).
Runtime effects are passed explicitly: `embedQ` is the (random)
embedding `create_embeddings` would return for a text query, `randVec i`
the random placeholder vector of the i-th mock result, `uuid i` its
fresh uuid and `now` the formatted `utcnow()`.  `int(total * 0.3)` for
the mock filtered count is modelled as exact integer arithmetic.
Returns the response together with the updated `_collections` state. -/
def vector_search (vector_db_type : String)
    (collections : List (String × CollectionInfo))
    (embedQ : List ℚ) (randVec : Nat → List ℚ) (uuid : Nat → String)
    (now : String) (request : VectorSearchRequest) :
    Except String (VectorSearchResponse × List (String × CollectionInfo)) :=
  if vector_db_type = "" then
    Except.error "Vector database is not configured"
  else
    let query_vector : List ℚ :=
      match request.query with
      | VQueryInput.text _ => embedQ
      | VQueryInput.vec v => v
    let collections2 :=
      if (collections.lookup request.collection).isSome then collections
      else dictInsert request.collection
        { dimension := query_vector.length, index_type := "hnsw",
          vector_count := 1000, created_at := now } collections
    let results := (List.range request.num_results).map (fun i =>
      ({ id := "doc-" ++ uuid i
         vector :=
           if (request.parameters.lookup "include_vectors").getD false then
             some (randVec i)
           else none
         score := some ((0.95 : ℚ) - i * (0.05 : ℚ))
         metadata := [
           ("title", PyVal.pyStr ("Document " ++ toString (i + 1))),
           ("url", PyVal.pyStr ("https://example.com/doc" ++ toString (i + 1))),
           ("timestamp", PyVal.pyStr now),
           ("summary", PyVal.pyStr ("This is a summary of document " ++
             toString (i + 1) ++ " related to the query.")),
           ("tags", PyVal.pyList [PyVal.pyStr "sample", PyVal.pyStr "test",
             PyVal.pyStr ("tag" ++ toString i)])] } : VectorRecord))
    let collection_info := (collections2.lookup request.collection).getD
      { dimension := query_vector.length, index_type := "hnsw",
        vector_count := 1000, created_at := now }
    let total_vectors := collection_info.vector_count
    let filtered_vectors :=
      if (request.filter.getD []).isEmpty then 0 else total_vectors * 3 / 10
    Except.ok
      ({ results := results
         metadata :=
           { collection := request.collection
             index_type := collection_info.index_type
             vector_dimensions := collection_info.dimension
             total_vectors_searched := total_vectors
             filtered_vectors := filtered_vectors } }, collections2)

/-- `UpsertVectorsRequest` from models/vector.py (lines 214-226). -/
structure UpsertVectorsRequest where
  collection : String
  vectors : List VectorRecord
  create_collection : Bool := false

/-- `UpsertVectorsResponse` from models/vector.py, restricted to the
deterministic fields (its `metadata` holds only runtime-only values). -/
structure UpsertVectorsResponse where
  inserted_count : Nat
  updated_count : Nat
  collection : String
deriving DecidableEq, Repr

/-- `VectorService.upsert_vectors` (services/vector.py lines 246-317),
with `now` the formatted `utcnow()`.  Returns the response together with
the updated `_collections` state.  The new-collection dimension uses the
first vector when present and non-empty, else 384; "half inserts, half
updates" is simulated with integer division. -/
def upsert_vectors (vector_db_type : String)
    (collections : List (String × CollectionInfo)) (now : String)
    (request : UpsertVectorsRequest) :
    Except String (UpsertVectorsResponse × List (String × CollectionInfo)) :=
  if vector_db_type = "" then
    Except.error "Vector database is not configured"
  else
    let finish := fun (cols2 : List (String × CollectionInfo)) =>
      let cols3 := dictAdjust request.collection
        (fun ci => { ci with
          vector_count := ci.vector_count + request.vectors.length }) cols2
      Except.ok
        ({ inserted_count := request.vectors.length / 2
           updated_count := request.vectors.length - request.vectors.length / 2
           collection := request.collection }, cols3)
    if (collections.lookup request.collection).isSome then
      finish collections
    else if request.create_collection then
      let vector_dim :=
        match request.vectors with
        | [] => 384
        | v :: _ =>
          match v.vector with
          | some l => if l.isEmpty then 384 else l.length
          | none => 384
      finish (dictInsert request.collection
        { dimension := vector_dim, index_type := "hnsw", vector_count := 0,
          created_at := now } collections)
    else
      Except.error ("Collection " ++ request.collection ++
        " does not exist and create_collection is False")

/-! ## Dict lemmas -/

theorem lookup_dictAdjust (k : String) (f : β → β) (m : List (String × β)) :
    (dictAdjust k f m).lookup k = (m.lookup k).map f := by
  induction m with
  | nil => rfl
  | cons kv m ih =>
    obtain ⟨a, b⟩ := kv
    show List.lookup k ((if a = k then (a, f b) else (a, b)) :: dictAdjust k f m) = _
    by_cases h : a = k
    · subst h
      rw [if_pos rfl]
      simp [List.lookup]
    · rw [if_neg h]
      have hka : (k == a) = false := beq_eq_false_iff_ne.mpr (Ne.symm h)
      simp only [List.lookup, hka]
      exact ih

theorem lookup_append_singleton (k : String) (v : β) (m : List (String × β))
    (h : m.lookup k = none) : (m ++ [(k, v)]).lookup k = some v := by
  induction m with
  | nil => simp [List.lookup]
  | cons kv m ih =>
    obtain ⟨a, b⟩ := kv
    simp only [List.cons_append, List.lookup] at h ⊢
    cases hka : (k == a) with
    | true =>
      rw [hka] at h
      exact Option.noConfusion h
    | false =>
      rw [hka] at h
      exact ih h

theorem lookup_dictInsert_fresh (k : String) (v : β) (m : List (String × β))
    (h : m.lookup k = none) : (dictInsert k v m).lookup k = some v := by
  have hany : m.any (fun kv => kv.1 = k) = false := by
    induction m with
    | nil => rfl
    | cons kv m ih =>
      obtain ⟨a, b⟩ := kv
      simp only [List.lookup] at h
      rcases hka : (k == a) with _ | _
      · rw [hka] at h
        have hne : ¬(a = k) := fun hh => by simp [hh] at hka
        simp [List.any_cons, hne, ih h]
      · rw [hka] at h
        cases h
  rw [dictInsert, if_neg (by simp [hany])]
  exact lookup_append_singleton k v m h

/-! ## Sample results used by concrete instantiations -/

/-- A concrete search result, shaped like the mock results
`_search_google`/`_search_bing` build. -/
def sampleResult (p : String) (i : Nat) : SearchResult :=
  { title := p ++ " Result " ++ toString i
    url := "https://example.com/" ++ p ++ "-result" ++ toString i
    snippet := "This is a search result snippet"
    provider := p
    rank := i }

/-- The top bing mock result with provider-reported relevance 0.8. -/
def bingTop : SearchResult :=
  { title := "Bing Result 1"
    url := "https://example.com/bing-result1"
    snippet := "This is a Bing search result snippet"
    provider := "bing"
    rank := 1
    metadata := [("relevance_score", (0.8 : ℚ))] }

/-- The top google mock result with provider-reported relevance 0.9. -/
def googleTop : SearchResult :=
  { title := "Google Result 1"
    url := "https://example.com/google-result1"
    snippet := "This is a Google search result snippet"
    provider := "google"
    rank := 1
    metadata := [("relevance_score", (0.9 : ℚ))] }

/-! ## Claim C3 -/

/-- C3: with the interleaved combination, providers A and B in priority
order A,B contributing results `[a1,a2,a3]` and `[b1,b2,b3]` and any
requested count of at least 6 yield exactly `[a1,b1,a2,b2,a3,b3]`; in
general `_combine_results` equals the spec's round-robin interleaving
(one result per provider per round in the fixed provider order, skipping
exhausted providers) truncated to the requested count, and is a pure
function of the provider ordering and result sets. -/
theorem combine_results_interleaved :
    (∀ (pr : List (String × List SearchResult)) (n : Nat),
      combine_results pr n = (roundRobinSpec (pr.map Prod.snd)).take n) ∧
    (∀ (a1 a2 a3 b1 b2 b3 : SearchResult) (n : Nat), 6 ≤ n →
      combine_results [("A", [a1, a2, a3]), ("B", [b1, b2, b3])] n =
        [a1, b1, a2, b2, a3, b3]) := by
  refine ⟨fun pr n => combine_results_eq_roundRobin pr n, ?_⟩
  intro a1 a2 a3 b1 b2 b3 n hn
  rw [combine_results_eq_roundRobin]
  have h0 : roundRobinSpec [([] : List SearchResult), []] = [] :=
    roundRobinSpec_of_nil _ (by simp)
  have h1 : roundRobinSpec [[a3], [b3]] = [a3, b3] := by
    rw [roundRobinSpec_of_cons _ (by simp)]
    simp [h0]
  have h2 : roundRobinSpec [[a2, a3], [b2, b3]] = [a2, b2, a3, b3] := by
    rw [roundRobinSpec_of_cons _ (by simp)]
    simp [h1]
  have h3 : roundRobinSpec [[a1, a2, a3], [b1, b2, b3]] =
      [a1, b1, a2, b2, a3, b3] := by
    rw [roundRobinSpec_of_cons _ (by simp)]
    simp [h2]
  simp only [List.map_cons, List.map_nil]
  rw [h3]
  exact List.take_of_length_le (by simpa using hn)

/-- Witness for C3 at concrete results and the requested count 6. -/
theorem combine_results_interleaved_witness :
    6 ≤ 6 ∧
    combine_results
      [("A", [sampleResult "A" 1, sampleResult "A" 2, sampleResult "A" 3]),
       ("B", [sampleResult "B" 1, sampleResult "B" 2, sampleResult "B" 3])] 6 =
      [sampleResult "A" 1, sampleResult "B" 1, sampleResult "A" 2,
       sampleResult "B" 2, sampleResult "A" 3, sampleResult "B" 3] :=
  ⟨by decide, combine_results_interleaved.2 _ _ _ _ _ _ 6 (by decide)⟩

/-! ## Claim C9 -/

/-- C9: for every provider-results map and requested count, the combined
list has length `min n (total input results)`, and every element is
drawn from the inputs, each input occurrence used at most once. -/
theorem combine_results_bounds (pr : List (String × List SearchResult)) (n : Nat) :
    (combine_results pr n).length = min n (totalLen (pr.map Prod.snd)) ∧
    (∀ x : SearchResult, (combine_results pr n).count x ≤
      ((pr.map Prod.snd).flatten).count x) ∧
    (∀ x : SearchResult, x ∈ combine_results pr n →
      x ∈ (pr.map Prod.snd).flatten) := by
  have heq := combine_results_eq_roundRobin pr n
  have hperm := roundRobinSpec_perm (pr.map Prod.snd)
  refine ⟨?_, ?_, ?_⟩
  · rw [heq, List.length_take, hperm.length_eq, List.length_flatten]
    rfl
  · intro x
    calc (combine_results pr n).count x
        ≤ (roundRobinSpec (pr.map Prod.snd)).count x := by
          rw [heq]
          exact (List.take_sublist _ _).count_le x
      _ = ((pr.map Prod.snd).flatten).count x := hperm.count_eq x
  · intro x hx
    rw [heq] at hx
    exact hperm.mem_iff.mp (List.take_subset _ _ hx)

/-! ## Claim C4 -/

/-- C4 counterexample: provider weights and relevance scores play no
role.  With the bing result (relevance 0.8) listed before the google
result (relevance 0.9), the combination puts the bing result first, so
the claimed weighted ranking (google above bing) fails; there is no
per-request strategy selection in `SearchRequest` at all. -/
theorem weighted_ranking_cex :
    combine_results [("bing", [bingTop]), ("google", [googleTop])] 10 =
      [bingTop, googleTop] ∧
    bingTop.provider = "bing" ∧ googleTop.provider = "google" ∧
    bingTop.metadata.lookup "relevance_score" = some (0.8 : ℚ) ∧
    googleTop.metadata.lookup "relevance_score" = some (0.9 : ℚ) ∧
    bingTop ≠ googleTop := by
  refine ⟨?_, rfl, rfl, rfl, rfl, ?_⟩
  · rw [combine_results_eq_roundRobin]
    have h0 : roundRobinSpec [([] : List SearchResult), []] = [] :=
      roundRobinSpec_of_nil _ (by simp)
    have h1 : roundRobinSpec [[bingTop], [googleTop]] = [bingTop, googleTop] := by
      rw [roundRobinSpec_of_cons _ (by simp)]
      simp [h0]
    simp only [List.map_cons, List.map_nil]
    rw [h1]
    rfl
  · intro h
    have := congrArg SearchResult.provider h
    simp [bingTop, googleTop] at this

/-- C4 amended: the only implemented combination is the hard-coded
interleaving; it orders results purely by provider position, ignoring
provider weights and relevance scores. -/
theorem combine_results_ignores_weights (p q : String) (x y : SearchResult)
    (n : Nat) (h : 2 ≤ n) :
    combine_results [(p, [x]), (q, [y])] n = [x, y] := by
  rw [combine_results_eq_roundRobin]
  have h0 : roundRobinSpec [([] : List SearchResult), []] = [] :=
    roundRobinSpec_of_nil _ (by simp)
  have h1 : roundRobinSpec [[x], [y]] = [x, y] := by
    rw [roundRobinSpec_of_cons _ (by simp)]
    simp [h0]
  simp only [List.map_cons, List.map_nil]
  rw [h1]
  exact List.take_of_length_le (by simpa using h)

/-- Witness for the amended C4. -/
theorem combine_results_ignores_weights_witness :
    2 ≤ 10 ∧
    combine_results [("bing", [bingTop]), ("google", [googleTop])] 10 =
      [bingTop, googleTop] :=
  ⟨by decide, combine_results_ignores_weights "bing" "google" bingTop googleTop 10
    (by decide)⟩

/-! ## Claim C5 -/

/-- C5 counterexample: two calls to `analyze_query` with the same text
return different `Query` values, because each call stores a fresh
`uuid4()` in `query_id` (and a fresh `utcnow()` in `timestamp`). -/
theorem analyze_query_not_deterministic_cex :
    analyze_query "python fastapi tutorial" "id-1" 0 ≠
      analyze_query "python fastapi tutorial" "id-2" 0 := by
  intro h
  have := congrArg Query.query_id h
  simp [analyze_query] at this

/-- C5 amended: `analyze_query` is deterministic in every text-derived
field (text, intent, locality, language, processed_text, parameters,
context), but `query_id` and `timestamp` are freshly generated per call
(`uuid4()` / `utcnow()`), so two calls return unequal `Query` values. -/
theorem analyze_query_text_fields_deterministic (t u1 u2 : String) (n1 n2 : Int) :
    (analyze_query t u1 n1).text = (analyze_query t u2 n2).text ∧
    (analyze_query t u1 n1).intent = (analyze_query t u2 n2).intent ∧
    (analyze_query t u1 n1).locality = (analyze_query t u2 n2).locality ∧
    (analyze_query t u1 n1).language = (analyze_query t u2 n2).language ∧
    (analyze_query t u1 n1).processed_text =
      (analyze_query t u2 n2).processed_text ∧
    (analyze_query t u1 n1).parameters = (analyze_query t u2 n2).parameters ∧
    (analyze_query t u1 n1).context = (analyze_query t u2 n2).context ∧
    (analyze_query t u1 n1).query_id = some u1 ∧
    (analyze_query t u1 n1).timestamp = some n1 := by
  exact ⟨rfl, rfl, rfl, rfl, rfl, rfl, rfl, rfl, rfl⟩

/-! ## Claim C6 -/

/-- C6 counterexample: even for the empty query text — for which no
classification could be confident, since none is attempted — the
returned intent and locality are `informational`/`global`, not the
claimed `undefined` defaults. -/
theorem analyze_query_not_undefined_cex :
    (analyze_query "" "u" 0).intent = SearchIntent.informational ∧
    (analyze_query "" "u" 0).locality = SearchLocality.globalLoc ∧
    SearchIntent.informational ≠ SearchIntent.undefined ∧
    SearchLocality.globalLoc ≠ SearchLocality.undefined :=
  ⟨rfl, rfl, by decide, by decide⟩

/-- C6 amended: `analyze_query` indeed never fails (it is a total
function of its inputs), but the stub performs no classification and
always sets intent to `informational` and locality to `global` for every
text; the `undefined` values exist only as the `Query` model's field
defaults, which `analyze_query` always overrides. -/
theorem analyze_query_always_informational_global (t u : String) (n : Int) :
    (analyze_query t u n).intent = SearchIntent.informational ∧
    (analyze_query t u n).locality = SearchLocality.globalLoc ∧
    ({ text := t } : Query).intent = SearchIntent.undefined ∧
    ({ text := t } : Query).locality = SearchLocality.undefined :=
  ⟨rfl, rfl, rfl, rfl⟩

/-! ## Claim C7 -/

/-- C7 counterexample: a schedule whose `cron_expression` is set to the
empty string (with `run_once_at` and `interval_seconds` unset) is falsy
under Python's `if schedule.cron_expression:`, so `_calculate_next_run`
returns `None`, not now + 5 minutes. -/
theorem calculate_next_run_empty_cron_cex :
    calculate_next_run 0
      { run_once_at := none, interval_seconds := none,
        cron_expression := some "" } = none ∧
    (none : Option Int) ≠ some (0 + 5 * 60) :=
  ⟨rfl, by decide⟩

/-- C7 amended: for every schedule whose `cron_expression` is a
non-empty string and whose `run_once_at` and `interval_seconds` are
unset, the next-run calculation returns exactly now + 5 minutes,
regardless of the cron expression's content. -/
theorem calculate_next_run_cron_five_minutes (now : Int) (c : String)
    (h : c ≠ "") :
    calculate_next_run now
      { run_once_at := none, interval_seconds := none,
        cron_expression := some c } = some (now + 5 * 60) := by
  simp [calculate_next_run, h]

/-- Witness for the amended C7 at a concrete cron expression. -/
theorem calculate_next_run_cron_five_minutes_witness :
    ("0 0 * * *" : String) ≠ "" ∧
    calculate_next_run 1000
      { run_once_at := none, interval_seconds := none,
        cron_expression := some "0 0 * * *" } = some (1000 + 5 * 60) :=
  ⟨by decide, calculate_next_run_cron_five_minutes 1000 "0 0 * * *" (by decide)⟩

/-! ## Claim C8 -/

/-- C8: with a configured vector database, a vector search for `n`
results returns exactly `n` results whose scores are the synthetic
values `0.95 - 0.05·i` — independent of the query (text or vector), of
the stored collections, and of the random vectors — and those scores are
strictly descending in `i`. -/
theorem vector_search_synthetic_scores (dbt : String)
    (cols : List (String × CollectionInfo)) (embedQ : List ℚ)
    (randVec : Nat → List ℚ) (uuid : Nat → String) (now : String)
    (req : VectorSearchRequest) (hdb : dbt ≠ "") :
    (vector_search dbt cols embedQ randVec uuid now req).map
        (fun p => p.1.results.map VectorRecord.score) =
      Except.ok ((List.range req.num_results).map
        (fun i : Nat => some ((0.95 : ℚ) - (i : ℚ) * 0.05))) ∧
    ∀ i j : Nat, i < j →
      ((0.95 : ℚ) - j * 0.05) < ((0.95 : ℚ) - i * 0.05) := by
  constructor
  · rw [vector_search, if_neg hdb]
    simp only [Except.map, List.map_map]
    rfl
  · intro i j hij
    have hc : (i : ℚ) < j := by exact_mod_cast hij
    have : (i : ℚ) * 0.05 < (j : ℚ) * 0.05 := by
      apply mul_lt_mul_of_pos_right hc
      norm_num
    linarith

/-- Witness for C8 at a concrete request for three results. -/
theorem vector_search_synthetic_scores_witness :
    ("qdrant" : String) ≠ "" ∧
    ((vector_search "qdrant" [] [1] (fun _ => []) (fun i => toString i) ""
        { query := VQueryInput.vec [1], collection := "science_articles",
          num_results := 3 }).map
        (fun p => p.1.results.map VectorRecord.score) =
      Except.ok ((List.range 3).map
        (fun i : Nat => some ((0.95 : ℚ) - (i : ℚ) * 0.05))) ∧
    ∀ i j : Nat, i < j →
      ((0.95 : ℚ) - j * 0.05) < ((0.95 : ℚ) - i * 0.05)) :=
  ⟨by decide, vector_search_synthetic_scores "qdrant" [] [1] (fun _ => [])
    (fun i => toString i) ""
    { query := VQueryInput.vec [1], collection := "science_articles",
      num_results := 3 } (by decide)⟩

/-! ## Claim C10 -/

/-- C10: a successful upsert of `n` vectors (the collection exists, or
`create_collection` is true) reports `inserted_count = n / 2`,
`inserted_count + updated_count = n`, and increases the target
collection's recorded `vector_count` by exactly `n` (from `0` for a
freshly created collection). -/
theorem upsert_vectors_counts (dbt : String)
    (cols : List (String × CollectionInfo)) (now : String)
    (req : UpsertVectorsRequest) (hdb : dbt ≠ "")
    (hex : (cols.lookup req.collection).isSome = true ∨
      req.create_collection = true) :
    ∃ resp cols2,
      upsert_vectors dbt cols now req = Except.ok (resp, cols2) ∧
      resp.inserted_count = req.vectors.length / 2 ∧
      resp.inserted_count + resp.updated_count = req.vectors.length ∧
      (cols2.lookup req.collection).map CollectionInfo.vector_count =
        some ((((cols.lookup req.collection).map
          CollectionInfo.vector_count).getD 0) + req.vectors.length) := by
  rw [upsert_vectors, if_neg hdb]
  cases hlk : cols.lookup req.collection with
  | some ci =>
    refine ⟨_, _, rfl, rfl, ?_, ?_⟩
    · show req.vectors.length / 2 +
        (req.vectors.length - req.vectors.length / 2) = req.vectors.length
      omega
    · rw [lookup_dictAdjust, hlk]
      simp
  | none =>
    have hcc : req.create_collection = true := by
      rcases hex with hex | hex
      · rw [hlk] at hex
        cases hex
      · exact hex
    rw [hcc]
    refine ⟨_, _, rfl, rfl, ?_, ?_⟩
    · show req.vectors.length / 2 +
        (req.vectors.length - req.vectors.length / 2) = req.vectors.length
      omega
    · rw [lookup_dictAdjust, lookup_dictInsert_fresh _ _ _ hlk]
      simp

/-- Witness for C10: three vectors upserted into a fresh collection. -/
theorem upsert_vectors_counts_witness :
    (("qdrant" : String) ≠ "" ∧
      ((([] : List (String × CollectionInfo)).lookup "c").isSome = true ∨
        true = true)) ∧
    ∃ resp cols2,
      upsert_vectors "qdrant" [] "2023-07-01"
        { collection := "c",
          vectors := [{ id := "v1" }, { id := "v2" }, { id := "v3" }],
          create_collection := true } = Except.ok (resp, cols2) ∧
      resp.inserted_count = 3 / 2 ∧
      resp.inserted_count + resp.updated_count = 3 ∧
      (cols2.lookup "c").map CollectionInfo.vector_count =
        some (((([] : List (String × CollectionInfo)).lookup "c").map
          CollectionInfo.vector_count).getD 0 + 3) :=
  ⟨⟨by decide, Or.inr rfl⟩,
    upsert_vectors_counts "qdrant" [] "2023-07-01"
      { collection := "c",
        vectors := [{ id := "v1" }, { id := "v2" }, { id := "v3" }],
        create_collection := true } (by decide) (Or.inr rfl)⟩

/-! ## Claims C1 and C2: the search entry point -/

/-- The google entry of `SearchService._providers` as `__init__` builds
it when google credentials are set. -/
def googleProviderConfig : ProviderConfig :=
  { enabled := true
    weight := 1
    endpoint := "https://www.googleapis.com/customsearch/v1" }

/-- Whenever at least one provider is configured, `search` reaches the
`BiasAnalysis(provider_bias=0.1, ...)` construction, whose float
arguments fail validation against the model's `Dict[str, Any]` fields —
so the call raises a `ValidationError` instead of returning a
response. -/
theorem search_nonempty_config_validation_error
    (cfg : List (String × ProviderConfig))
    (fetch : String → Except String (List SearchResult))
    (req : SearchRequest) (h : cfg ≠ []) :
    search cfg fetch req =
      Except.error (SearchError.validationError "value is not a valid dict") := by
  have hne : cfg.isEmpty = false := by
    cases cfg with
    | nil => exact absurd rfl h
    | cons a l => rfl
  unfold search
  rw [hne]
  rfl

/-- C2 (code bug): with one configured provider whose call fails at
request time, `search` does not return the claimed empty-but-valid
`SearchResponse`: it raises a pydantic `ValidationError` while building
the bias-analysis metadata (floats passed for `Dict[str, Any]` fields),
even though the per-provider failure itself was absorbed into an empty
result list (second conjunct). -/
theorem search_all_providers_fail_raises :
    search
      [("google", googleProviderConfig)]
      (fun _ => Except.error "Unavailable")
      { query := QueryInput.ofString "python fastapi tutorial" } =
      Except.error (SearchError.validationError "value is not a valid dict") ∧
    combine_results [("google", ([] : List SearchResult))] 10 = [] := by
  constructor
  · exact search_nonempty_config_validation_error _ _ _ (List.cons_ne_nil _ _)
  · rw [combine_results_eq_roundRobin, roundRobinSpec_of_nil _ (by simp)]
    rfl

/-- C1 counterexample: with google configured and a request whose
provider filter selects only the unconfigured bing — i.e. zero enabled
providers for this request — `search` does not fail with the
configuration `ValueError`; instead the provider set silently falls back
to the full configured list `["google"]` and the pipeline proceeds to
fan-out. -/
theorem search_filter_fallback_cex :
    enabledProvidersFor
      [("google", googleProviderConfig)]
      { query := QueryInput.ofString "q", providers := some ["bing"] } =
      ["google"] ∧
    search
      [("google", googleProviderConfig)]
      (fun _ => Except.ok [])
      { query := QueryInput.ofString "q", providers := some ["bing"] } ≠
      Except.error (SearchError.valueError "No search providers are configured") := by
  constructor
  · rfl
  · intro hcontra
    rw [search_nonempty_config_validation_error _ _ _
      (List.cons_ne_nil _ _)] at hcontra
    simp at hcontra

/-- C1 amended: only a fully empty provider configuration makes `search`
fail up front (with `ValueError("No search providers are configured")`,
before any fan-out); when the request's provider filter selects no
configured enabled provider, `search` instead falls back silently to the
full configured provider set. -/
theorem search_no_providers_and_filter_fallback :
    (∀ (fetch : String → Except String (List SearchResult))
       (req : SearchRequest),
      search [] fetch req =
        Except.error (SearchError.valueError
          "No search providers are configured")) ∧
    (∀ (cfg : List (String × ProviderConfig)) (req : SearchRequest),
      (providersToUse cfg req).filter
        (fun p => ((cfg.lookup p).map ProviderConfig.enabled).getD false) = [] →
      enabledProvidersFor cfg req = cfg.map Prod.fst) := by
  constructor
  · intro fetch req
    rfl
  · intro cfg req hfil
    show (if ((providersToUse cfg req).filter
        (fun p => ((cfg.lookup p).map ProviderConfig.enabled).getD false)).isEmpty =
          true
      then cfg.map Prod.fst
      else (providersToUse cfg req).filter
        (fun p => ((cfg.lookup p).map ProviderConfig.enabled).getD false)) =
      cfg.map Prod.fst
    rw [hfil]
    rfl

/-- Witness for the amended C1: the empty-config failure at a concrete
request, and the fallback at a concrete filtered-out provider set. -/
theorem search_no_providers_and_filter_fallback_witness :
    search [] (fun _ => Except.ok []) { query := QueryInput.ofString "q" } =
      Except.error (SearchError.valueError
        "No search providers are configured") ∧
    enabledProvidersFor
      [("google", googleProviderConfig)]
      { query := QueryInput.ofString "q", providers := some ["bing"] } =
      ([("google", googleProviderConfig)].map Prod.fst) :=
  ⟨search_no_providers_and_filter_fallback.1 (fun _ => Except.ok [])
      { query := QueryInput.ofString "q" },
    search_no_providers_and_filter_fallback.2 _ _ (by rfl)⟩

end LlamaSearchAI
